import Mathlib

/-!
# Verification of the reset-event synchronization primitive

Shallow embedding of `src/lib/reset-event.js`: a manual-reset event (gate)
holding a FIFO queue of waiter tokens, with a bounded backlog governed by an
overflow strategy, a per-release budget (`autoResetCount`), and per-token
timeouts.  Callbacks are opaque: invoking a callback is modelled by recording
its token in an `invoked` list, and clearing a timer by recording the token id
in a `cleared` list.  JavaScript numeric behaviour that the source relies on
(`Infinity`, `NaN`, the uninitialized `this.callbacksCount` field, truthiness
of the `timeout` argument) is modelled explicitly.
-/

namespace ResetEventModel

/-- A JavaScript-style number as used for `autoResetCount` / `callbacksCount`:
either `NaN` (which is also how the *uninitialized* `this.callbacksCount`
behaves under `--`, `=== 0` and `> 0`), `Infinity` (the default
`autoResetCount`), or a finite integer. -/
inductive JNum where
  | nan : JNum
  | inf : JNum
  | fin : Int → JNum
deriving DecidableEq, Repr

/-- The `x--` decrement: `NaN - 1 = NaN`, `Infinity - 1 = Infinity`. -/
def JNum.sub1 : JNum → JNum
  | JNum.nan => JNum.nan
  | JNum.inf => JNum.inf
  | JNum.fin n => JNum.fin (n - 1)

/-- The `x++` increment. -/
def JNum.add1 : JNum → JNum
  | JNum.nan => JNum.nan
  | JNum.inf => JNum.inf
  | JNum.fin n => JNum.fin (n + 1)

/-- The `x === 0` test: false for `NaN` and `Infinity`. -/
def JNum.isZero : JNum → Bool
  | JNum.nan => false
  | JNum.inf => false
  | JNum.fin n => n == 0

/-- The `x > 0` test: false for `NaN`, true for `Infinity`. -/
def JNum.gtZero : JNum → Bool
  | JNum.nan => false
  | JNum.inf => true
  | JNum.fin n => decide (0 < n)

/-- The configured `maxQueueSize`.  `reduceQueue` first checks
`typeof maxQueueSize !== 'number' || isNaN(maxQueueSize)` and is a no-op in
that case (constructor `nan` covers both); `Infinity` (the default) passes the
check but makes `queue.length > maxQueueSize` always false (`inf`); a numeric
queue bound is embedded as a natural number (`fin`). -/
inductive QBound where
  | nan : QBound
  | inf : QBound
  | fin : Nat → QBound
deriving DecidableEq, Repr

/-- The options record (`ResetEvent.defaultOptions` merged with the caller's
options by `_.extend`; the model takes the merged record directly). -/
structure Options where
  maxQueueSize : QBound
  overflowStrategy : String
  autoResetCount : JNum
deriving DecidableEq, Repr

/-- `ResetEvent.defaultOptions`. -/
def defaultOptions : Options :=
  { maxQueueSize := QBound.inf, overflowStrategy := "this", autoResetCount := JNum.inf }

/-- A waiter token as created by `createToken`.  The callback is opaque and is
identified by the token's `id`; the fields `elapsed`, `start`, `resetEvent`
and `set` play no role in the queue/budget logic.  `timeoutId` is the armed
timer handle (`none` models both "no timer armed" and the `null` written by a
fired timer); Node timer handles are truthy, so `queueToken.timeoutId && ...`
is `timeoutId.isSome`. -/
structure Token where
  id : Nat
  isCanceled : Bool
  timeoutId : Option Nat
deriving DecidableEq, Repr

/-- The gate state: `this.queue`, `this.isSignaled`, `this.options`,
`this.callbacksCount`. -/
structure ResetEvent where
  queue : List Token
  isSignaled : Bool
  options : Options
  callbacksCount : JNum
deriving DecidableEq, Repr

/-- The constructor `ResetEvent(isSignaled, options)`.  It does *not*
initialize `this.callbacksCount`; the undefined field behaves exactly like
`NaN` under the only operations applied to it (`--`, `=== 0`), so it is
modelled as `JNum.nan`. -/
def ResetEvent.init (isSignaled : Bool) (options : Options) : ResetEvent :=
  { queue := [], isSignaled := isSignaled, options := options,
    callbacksCount := JNum.nan }

/-- The `'first'` overflow loop of `reduceQueue`:
`while (queue.length && queue.length > bound) result.push(queue.shift())`.
Returns (remaining queue, removed tokens in removal order). -/
def shiftLoop : List Token → Nat → List Token × List Token
  | [], _ => ([], [])
  | t :: rest, bound =>
    if rest.length + 1 > bound then
      let p := shiftLoop rest bound
      (p.1, t :: p.2)
    else (t :: rest, [])

/-- The `'last'` overflow loop of `reduceQueue`, acting on the *reversed*
queue (so `queue.pop()` is a head take and `result.unshift` appends):
`while (queue.length && queue.length > bound) result.unshift(queue.pop())`.
Returns (remaining reversed queue, removed tokens in original queue order). -/
def popLoopRev : List Token → Nat → List Token × List Token
  | [], _ => ([], [])
  | t :: rest, bound =>
    if rest.length + 1 > bound then
      let p := popLoopRev rest bound
      (p.1, p.2 ++ [t])
    else (t :: rest, [])

/-- `ResetEvent.prototype.reduceQueue(queue, options)`.  Returns the queue
after eviction together with the evicted tokens (the JS version mutates
`queue` in place and returns the removed tokens).  For `'last'` the JS bound
is `maxQueueSize - 1`, which combined with the `queue.length &&` guard
behaves exactly like the truncated natural subtraction used here. -/
def reduceQueue (queue : List Token) (options : Options) : List Token × List Token :=
  match options.maxQueueSize with
  | QBound.nan => (queue, [])
  | QBound.inf => (queue, [])
  | QBound.fin m =>
    if queue.length > m then
      if options.overflowStrategy = "last" then
        match queue.reverse with
        | [] => (queue, [])
        | lastTok :: restRev =>
          let p := popLoopRev restRev (m - 1)
          (p.1.reverse ++ [lastTok], p.2)
      else if options.overflowStrategy = "first" then
        shiftLoop queue m
      else if options.overflowStrategy = "this" then
        match queue.reverse with
        | [] => (queue, [])
        | lastTok :: restRev => (restRev.reverse, [lastTok])
      else (queue, [])
    else (queue, [])

/-- Outcome of the drain loop of `ResetEvent.prototype.set`. -/
structure DrainResult where
  remaining : List Token
  callbacksCount : JNum
  signaled : Bool
  invoked : List Token
  cleared : List Nat
deriving DecidableEq, Repr

/-- The `while (this.queue.length > 0)` drain loop of
`ResetEvent.prototype.set`, started with `count = this.options.autoResetCount`.
Per iteration: shift the front token, decrement the budget, clear the token's
timer when it is armed and the decremented budget is still `> 0`, then either
refund the budget for a cancelled token, or invoke the callback and stop
(still non-signaled) when the budget hits `=== 0`.  When the loop exhausts the
queue, `this.isSignaled = true`. -/
def setLoop : List Token → JNum → DrainResult
  | [], count => { remaining := [], callbacksCount := count, signaled := true,
                   invoked := [], cleared := [] }
  | t :: rest, count =>
    let count1 := count.sub1
    let cleared0 : List Nat :=
      if t.timeoutId.isSome && count1.gtZero then [t.id] else []
    if t.isCanceled then
      let r := setLoop rest count1.add1
      { remaining := r.remaining, callbacksCount := r.callbacksCount,
        signaled := r.signaled, invoked := r.invoked,
        cleared := cleared0 ++ r.cleared }
    else if count1.isZero then
      { remaining := rest, callbacksCount := count1, signaled := false,
        invoked := [t], cleared := cleared0 }
    else
      let r := setLoop rest count1
      { remaining := r.remaining, callbacksCount := r.callbacksCount,
        signaled := r.signaled, invoked := t :: r.invoked,
        cleared := cleared0 ++ r.cleared }

/-- Outcome of `ResetEvent.prototype.set`: the new gate state, the tokens
whose callbacks were executed (in execution order), and the ids of the tokens
whose timers were cleared. -/
structure SetResult where
  state : ResetEvent
  invoked : List Token
  cleared : List Nat
deriving DecidableEq, Repr

/-- `ResetEvent.prototype.reset()`: throws when already non-signaled,
otherwise flips `isSignaled` to false and touches nothing else. -/
def ResetEvent.reset (e : ResetEvent) : Except String ResetEvent :=
  if e.isSignaled = false then
    Except.error "The reset event is already in a non signaled state"
  else
    Except.ok { e with isSignaled := false }

/-- `ResetEvent.prototype.set()`: throws when already signaled, otherwise
sets `this.callbacksCount = this.options.autoResetCount` and runs the drain
loop; the gate becomes signaled only if the loop empties the queue without
the budget hitting `=== 0` on an invoked callback. -/
def ResetEvent.set (e : ResetEvent) : Except String SetResult :=
  if e.isSignaled = true then
    Except.error "The reset event is already in a signaled state"
  else
    let r := setLoop e.queue e.options.autoResetCount
    let e1 : ResetEvent :=
      { e with queue := r.remaining, isSignaled := r.signaled,
               callbacksCount := r.callbacksCount }
    Except.ok { state := e1, invoked := r.invoked, cleared := r.cleared }

/-- Eviction marks a token cancelled (`reducedTokens[i].isCanceled = true`);
`clearTimeout` is also called there, but the `timeoutId` field itself is not
overwritten by that loop. -/
def cancelToken (t : Token) : Token := { t with isCanceled := true }

/-- The body of the `setTimeout` closure armed by `wait`: when the timer with
the token's id fires while still armed, it sets `isCanceled = true` and
`timeoutId = null`; a token without an armed timer is untouched. -/
def timeoutFireUpdate (i : Nat) (t : Token) : Token :=
  if (t.id == i) && t.timeoutId.isSome then
    { t with isCanceled := true, timeoutId := none }
  else t

/-- A timeout timer firing for the queued token with id `i`. -/
def ResetEvent.fireTimeout (e : ResetEvent) (i : Nat) : ResetEvent :=
  { e with queue := e.queue.map (timeoutFireUpdate i) }

/-- Outcome of `ResetEvent.prototype.wait`: the new gate state, the token
returned to the caller (possibly marked cancelled by the eviction loop), any
immediately-invoked callback, and the evicted tokens. -/
structure WaitResult where
  state : ResetEvent
  token : Token
  invoked : List Token
  evicted : List Token
deriving DecidableEq, Repr

/-- `ResetEvent.prototype.wait(callback, timeout)`.  The callback is opaque
(the `_.isFunction` guard rejects JS non-functions, which have no counterpart
in the typed embedding); `id` is the fresh id handed out by the global
`tokenId++` counter of `createToken`.  The `timeout` argument is an optional
millisecond count; `if (timeout)` is truthy exactly for a present nonzero
count, and arming stores a (truthy) timer handle, modelled as `some id`.
When signaled: execute the callback, decrement `this.callbacksCount`, and
close the gate if it hits `=== 0`.  When non-signaled: push the token.  In
both branches `reduceQueue` then runs and every evicted token is marked
cancelled. -/
def ResetEvent.wait (e : ResetEvent) (id : Nat) (timeout : Option Nat) : WaitResult :=
  let armed : Bool :=
    match timeout with
    | none => false
    | some t => t != 0
  let token : Token :=
    { id := id, isCanceled := false,
      timeoutId := if armed then some id else none }
  if e.isSignaled then
    let c1 := e.callbacksCount.sub1
    let sig1 : Bool := if c1.isZero then false else e.isSignaled
    let p := reduceQueue e.queue e.options
    { state := { e with queue := p.1, isSignaled := sig1, callbacksCount := c1 },
      token := token, invoked := [token], evicted := p.2.map cancelToken }
  else
    let q1 := e.queue ++ [token]
    let p := reduceQueue q1 e.options
    let retTok := if p.2.any (fun s => s.id == id) then cancelToken token else token
    { state := { e with queue := p.1 },
      token := retTok, invoked := [], evicted := p.2.map cancelToken }

/-- `ResetEvent.prototype.queueSize()`. -/
def ResetEvent.queueSize (e : ResetEvent) : Nat := e.queue.length

/-- A sequence of `wait` calls, each given by (fresh token id, timeout). -/
def ResetEvent.waitSeq (e : ResetEvent) : List (Nat × Option Nat) → ResetEvent
  | [] => e
  | c :: rest => ResetEvent.waitSeq (e.wait c.1 c.2).state rest

/-- The gate invariant: whenever the gate is signaled (Open), the waiter
queue is empty. -/
def GateInv (e : ResetEvent) : Prop := e.isSignaled = true → e.queue = []

/-- The overflow strategies under which the configured bound is honoured:
any of the three strategies, except that `'last'` needs a bound of at least
one (it always reattaches the newest token). -/
def stratOk (options : Options) (m : Nat) : Prop :=
  options.overflowStrategy = "this" ∨ options.overflowStrategy = "first" ∨
    (options.overflowStrategy = "last" ∧ 1 ≤ m)

/-! ## Lemmas about `reduceQueue` -/

theorem shiftLoop_eq (q : List Token) (bound : Nat) :
    shiftLoop q bound = (q.drop (q.length - bound), q.take (q.length - bound)) := by
  induction q with
  | nil => simp [shiftLoop]
  | cons t rest ih =>
    by_cases hb : rest.length + 1 > bound
    · have h1 : rest.length + 1 - bound = (rest.length - bound) + 1 := by omega
      simp [shiftLoop, hb, ih, h1]
    · have h1 : rest.length + 1 - bound = 0 := by omega
      simp [shiftLoop, hb, h1]

theorem popLoopRev_eq (q : List Token) (bound : Nat) :
    popLoopRev q bound =
      (q.drop (q.length - bound), (q.take (q.length - bound)).reverse) := by
  induction q with
  | nil => simp [popLoopRev]
  | cons t rest ih =>
    by_cases hb : rest.length + 1 > bound
    · have h1 : rest.length + 1 - bound = (rest.length - bound) + 1 := by omega
      simp [popLoopRev, hb, ih, h1]
    · have h1 : rest.length + 1 - bound = 0 := by omega
      simp [popLoopRev, hb, h1]

theorem reduceQueue_no_overflow (q : List Token) (options : Options) (m : Nat)
    (hm : options.maxQueueSize = QBound.fin m) (hq : ¬ q.length > m) :
    reduceQueue q options = (q, []) := by
  simp [reduceQueue, hm, hq]

theorem reduceQueue_this_length (q : List Token) (options : Options) (m : Nat)
    (hm : options.maxQueueSize = QBound.fin m)
    (hstrat : options.overflowStrategy = "this")
    (hlen : q.length > m) :
    (reduceQueue q options).1.length = q.length - 1 := by
  have hne : q ≠ [] := by
    intro h
    subst h
    simp at hlen
  obtain ⟨a, l, hrev⟩ : ∃ a l, q.reverse = a :: l := by
    cases hq : q.reverse with
    | nil => exact absurd (List.reverse_eq_nil_iff.mp hq) hne
    | cons a l => exact ⟨a, l, rfl⟩
  have hql : q.length = l.length + 1 := by
    have h := congrArg List.length hrev
    simpa using h
  simp [reduceQueue, hm, hstrat, hlen, hrev]
  omega

theorem reduceQueue_first_length (q : List Token) (options : Options) (m : Nat)
    (hm : options.maxQueueSize = QBound.fin m)
    (hstrat : options.overflowStrategy = "first")
    (hlen : q.length > m) :
    (reduceQueue q options).1.length = m := by
  simp [reduceQueue, hm, hstrat, hlen, shiftLoop_eq]
  omega

theorem reduceQueue_last_eq (body : List Token) (lastTok : Token)
    (options : Options) (m : Nat)
    (hm : options.maxQueueSize = QBound.fin m)
    (hstrat : options.overflowStrategy = "last")
    (hlen : body.length + 1 > m) :
    reduceQueue (body ++ [lastTok]) options =
      (body.take (m - 1) ++ [lastTok], body.drop (m - 1)) := by
  have hrev : (body ++ [lastTok]).reverse = lastTok :: body.reverse := by simp
  have hlb : (body ++ [lastTok]).length > m := by
    simp only [List.length_append, List.length_cons, List.length_nil]
    omega
  have hsub : body.length - (body.length - (m - 1)) = m - 1 := by omega
  simp [reduceQueue, hm, hstrat, hlb, hrev, popLoopRev_eq, List.drop_reverse,
    List.take_reverse, hsub]
  omega

theorem reduceQueue_push_le (q : List Token) (tk : Token) (options : Options) (m : Nat)
    (hm : options.maxQueueSize = QBound.fin m) (hstrat : stratOk options m)
    (hq : q.length ≤ m) :
    (reduceQueue (q ++ [tk]) options).1.length ≤ m := by
  by_cases hlen : (q ++ [tk]).length > m
  · rcases hstrat with hthis | hfirst | ⟨hlast, hm1⟩
    · rw [reduceQueue_this_length (q ++ [tk]) options m hm hthis hlen]
      simp only [List.length_append, List.length_cons, List.length_nil]
      omega
    · rw [reduceQueue_first_length (q ++ [tk]) options m hm hfirst hlen]
    · have hlen1 : q.length + 1 > m := by
        simpa using hlen
      rw [reduceQueue_last_eq q tk options m hm hlast hlen1]
      simp only [List.length_append, List.length_take, List.length_cons,
        List.length_nil]
      omega
  · rw [reduceQueue_no_overflow (q ++ [tk]) options m hm hlen]
    exact Nat.le_of_not_lt hlen

theorem wait_closed_step (e : ResetEvent) (m : Nat) (id : Nat) (tmo : Option Nat)
    (hsig : e.isSignaled = false)
    (hm : e.options.maxQueueSize = QBound.fin m)
    (hstrat : stratOk e.options m)
    (hlen : e.queue.length ≤ m) :
    (e.wait id tmo).state.isSignaled = false ∧
      (e.wait id tmo).state.options = e.options ∧
      (e.wait id tmo).state.queue.length ≤ m := by
  refine ⟨?_, ?_, ?_⟩
  · simp [ResetEvent.wait, hsig]
  · simp [ResetEvent.wait, hsig]
  · simp only [ResetEvent.wait, hsig, Bool.false_eq_true, if_false]
    exact reduceQueue_push_le e.queue _ e.options m hm hstrat hlen

/-! ## Lemmas about the drain loop of `set` -/

theorem setLoop_fin_take_drop (q : List Token) (K : Nat)
    (hnc : ∀ t ∈ q, t.isCanceled = false) (h1 : 1 ≤ K) (h2 : K ≤ q.length) :
    (setLoop q (JNum.fin (K : Int))).remaining = q.drop K ∧
      (setLoop q (JNum.fin (K : Int))).signaled = false ∧
      (setLoop q (JNum.fin (K : Int))).invoked = q.take K := by
  induction q generalizing K with
  | nil => simp at h2; omega
  | cons t rest ih =>
    obtain ⟨k, rfl⟩ : ∃ k, K = k + 1 := ⟨K - 1, by omega⟩
    have hct : t.isCanceled = false := hnc t (List.mem_cons_self t rest)
    rcases Nat.eq_zero_or_pos k with hk | hk
    · subst hk
      simp [setLoop, hct, JNum.sub1, JNum.isZero]
    · have hsub : (JNum.fin ((k : Int) + 1)).sub1 = JNum.fin ((k : Nat) : Int) := by
        simp only [JNum.sub1, JNum.fin.injEq]
        omega
      have hz : (JNum.fin ((k : Nat) : Int)).isZero = false := by
        simp only [JNum.isZero, beq_eq_false_iff_ne, ne_eq]
        omega
      obtain ⟨hr, hs, hi⟩ :=
        ih k (fun s hs => hnc s (List.mem_cons_of_mem t hs)) hk
          (by simp only [List.length_cons] at h2; omega)
      refine ⟨?_, ?_, ?_⟩ <;> simp [setLoop, hct, hsub, hz, hr, hs, hi]

theorem setLoop_inf (q : List Token) :
    (setLoop q JNum.inf).remaining = [] ∧ (setLoop q JNum.inf).signaled = true ∧
      (setLoop q JNum.inf).invoked = q.filter (fun t => !t.isCanceled) := by
  induction q with
  | nil => simp [setLoop]
  | cons t rest ih =>
    obtain ⟨hr, hs, hi⟩ := ih
    cases hct : t.isCanceled with
    | true =>
      refine ⟨?_, ?_, ?_⟩ <;>
        simp [setLoop, hct, JNum.sub1, JNum.add1, JNum.isZero, hr, hs, hi,
          List.filter_cons]
    | false =>
      refine ⟨?_, ?_, ?_⟩ <;>
        simp [setLoop, hct, JNum.sub1, JNum.isZero, hr, hs, hi, List.filter_cons]

theorem setLoop_big (q : List Token) (K : Int)
    (h : ((q.filter (fun t => !t.isCanceled)).length : Int) < K) :
    (setLoop q (JNum.fin K)).remaining = [] ∧
      (setLoop q (JNum.fin K)).signaled = true ∧
      (setLoop q (JNum.fin K)).invoked = q.filter (fun t => !t.isCanceled) := by
  induction q generalizing K with
  | nil => simp [setLoop]
  | cons t rest ih =>
    cases hct : t.isCanceled with
    | true =>
      have hfil : (t :: rest).filter (fun s => !s.isCanceled) =
          rest.filter (fun s => !s.isCanceled) := by
        simp [List.filter_cons, hct]
      have hcan : (JNum.fin K).sub1.add1 = JNum.fin K := by
        simp only [JNum.sub1, JNum.add1, JNum.fin.injEq]
        omega
      obtain ⟨hr, hs, hi⟩ := ih K (by rw [hfil] at h; exact h)
      refine ⟨?_, ?_, ?_⟩ <;> simp [setLoop, hct, hcan, hr, hs, hi, hfil]
    | false =>
      have hfil : (t :: rest).filter (fun s => !s.isCanceled) =
          t :: rest.filter (fun s => !s.isCanceled) := by
        simp [List.filter_cons, hct]
      rw [hfil] at h
      rw [List.length_cons] at h
      push_cast at h
      have hz : (JNum.fin (K - 1)).isZero = false := by
        simp only [JNum.isZero, beq_eq_false_iff_ne, ne_eq]
        omega
      obtain ⟨hr, hs, hi⟩ := ih (K - 1) (by omega)
      refine ⟨?_, ?_, ?_⟩ <;>
        simp [setLoop, hct, JNum.sub1, hz, hr, hs, hi, hfil]

/-! ## Claim C1 -/

/-- Claim C1 (amended: `releaseCount = K` with `1 ≤ K ≤ N`): on a closed gate
whose queue holds `N` non-cancelled tokens, `set` (Release) with
`autoResetCount = K`, `1 ≤ K ≤ N`, invokes exactly the first `K` callbacks in
FIFO arrival order, leaves the gate closed, and leaves exactly `N - K` tokens
queued.  (`K = 0` is excluded: the `=== 0` budget check is only evaluated
after an invocation, so a zero budget drains the whole queue; see the
counterexample.) -/
theorem c1_release_fifo (e : ResetEvent) (K : Nat)
    (hsig : e.isSignaled = false)
    (hcount : e.options.autoResetCount = JNum.fin (K : Int))
    (hnc : ∀ t ∈ e.queue, t.isCanceled = false)
    (h1 : 1 ≤ K) (h2 : K ≤ e.queue.length) :
    ∃ r, e.set = Except.ok r ∧
      r.invoked = e.queue.take K ∧
      r.invoked.length = K ∧
      r.state.isSignaled = false ∧
      r.state.queue = e.queue.drop K ∧
      r.state.queue.length = e.queue.length - K := by
  obtain ⟨hr, hs, hi⟩ := setLoop_fin_take_drop e.queue K hnc h1 h2
  refine ⟨{ state := { e with
              queue := (setLoop e.queue (JNum.fin (K : Int))).remaining,
              isSignaled := (setLoop e.queue (JNum.fin (K : Int))).signaled,
              callbacksCount := (setLoop e.queue (JNum.fin (K : Int))).callbacksCount },
            invoked := (setLoop e.queue (JNum.fin (K : Int))).invoked,
            cleared := (setLoop e.queue (JNum.fin (K : Int))).cleared },
          ?_, hi, ?_, hs, hr, ?_⟩
  · simp [ResetEvent.set, hsig, hcount]
  · rw [hi, List.length_take]
    omega
  · rw [hr, List.length_drop]

/-- Witness for `c1_release_fifo`: a closed gate with two queued tokens and
`autoResetCount = 1` invokes only the oldest token and stays closed with one
token queued. -/
theorem c1_release_fifo_witness :
    ∃ r, ResetEvent.set
        { queue := [{ id := 1, isCanceled := false, timeoutId := none },
                    { id := 2, isCanceled := false, timeoutId := none }],
          isSignaled := false,
          options := { maxQueueSize := QBound.inf, overflowStrategy := "this",
                       autoResetCount := JNum.fin ((1 : Nat) : Int) },
          callbacksCount := JNum.nan } = Except.ok r ∧
      r.invoked = [{ id := 1, isCanceled := false, timeoutId := none }] ∧
      r.invoked.length = 1 ∧
      r.state.isSignaled = false ∧
      r.state.queue = [{ id := 2, isCanceled := false, timeoutId := none }] ∧
      r.state.queue.length = 1 := by
  have h := c1_release_fifo
    { queue := [{ id := 1, isCanceled := false, timeoutId := none },
                { id := 2, isCanceled := false, timeoutId := none }],
      isSignaled := false,
      options := { maxQueueSize := QBound.inf, overflowStrategy := "this",
                   autoResetCount := JNum.fin ((1 : Nat) : Int) },
      callbacksCount := JNum.nan }
    1 rfl rfl (by decide) (by decide) (by decide)
  simpa using h

/-- Counterexample to claim C1 as stated: with `releaseCount = K = 0 ≤ N = 1`
the code invokes 1 callback (not 0) and opens the gate (the claim demands a
still-closed gate): the budget check `=== 0` runs only after an invocation,
so the decrement takes the budget to `-1` and it never reaches zero again. -/
theorem c1_counterexample :
    (ResetEvent.set
        { queue := [{ id := 0, isCanceled := false, timeoutId := none }],
          isSignaled := false,
          options := { maxQueueSize := QBound.inf, overflowStrategy := "this",
                       autoResetCount := JNum.fin 0 },
          callbacksCount := JNum.nan }).map
      (fun r => (r.invoked.length, r.state.isSignaled)) = Except.ok (1, true) := by
  rfl

/-! ## Claim C2 -/

/-- Claim C2 (amended: `releaseCount` unbounded or *strictly greater* than
the queue length): `set` (Release) on a closed gate then invokes every
non-cancelled queued token's callback in order, empties the queue, and opens
the gate.  (`releaseCount` exactly equal to the number of queued tokens is
excluded: when the last invocation exhausts the budget, `set` returns before
the `isSignaled = true` assignment; see the counterexample.) -/
theorem c2_release_drains (e : ResetEvent)
    (hsig : e.isSignaled = false)
    (hcount : e.options.autoResetCount = JNum.inf ∨
      ∃ K : Int, e.options.autoResetCount = JNum.fin K ∧ (e.queue.length : Int) < K) :
    ∃ r, e.set = Except.ok r ∧
      r.invoked = e.queue.filter (fun t => !t.isCanceled) ∧
      r.state.queue = [] ∧
      r.state.isSignaled = true := by
  have key : (setLoop e.queue e.options.autoResetCount).remaining = [] ∧
      (setLoop e.queue e.options.autoResetCount).signaled = true ∧
      (setLoop e.queue e.options.autoResetCount).invoked =
        e.queue.filter (fun t => !t.isCanceled) := by
    rcases hcount with hinf | ⟨K, hfin, hlt⟩
    · rw [hinf]
      exact setLoop_inf e.queue
    · rw [hfin]
      have hle : ((e.queue.filter (fun t => !t.isCanceled)).length : Int) ≤
          (e.queue.length : Int) := by
        exact_mod_cast List.length_filter_le _ _
      exact setLoop_big e.queue K (lt_of_le_of_lt hle hlt)
  obtain ⟨hr, hs, hi⟩ := key
  refine ⟨{ state := { e with
              queue := (setLoop e.queue e.options.autoResetCount).remaining,
              isSignaled := (setLoop e.queue e.options.autoResetCount).signaled,
              callbacksCount := (setLoop e.queue e.options.autoResetCount).callbacksCount },
            invoked := (setLoop e.queue e.options.autoResetCount).invoked,
            cleared := (setLoop e.queue e.options.autoResetCount).cleared },
          ?_, hi, hr, hs⟩
  simp [ResetEvent.set, hsig]

/-- Witness for `c2_release_drains`: a closed gate holding one live and one
cancelled token with `autoResetCount = 2 > 2`-token queue... budget `3`
strictly exceeds the queue length `2`, so the queue drains, only the live
token's callback runs, and the gate opens. -/
theorem c2_release_drains_witness :
    ∃ r, ResetEvent.set
        { queue := [{ id := 1, isCanceled := false, timeoutId := none },
                    { id := 2, isCanceled := true, timeoutId := none }],
          isSignaled := false,
          options := { maxQueueSize := QBound.inf, overflowStrategy := "this",
                       autoResetCount := JNum.fin 3 },
          callbacksCount := JNum.nan } = Except.ok r ∧
      r.invoked = [{ id := 1, isCanceled := false, timeoutId := none }] ∧
      r.state.queue = [] ∧
      r.state.isSignaled = true := by
  have h := c2_release_drains
    { queue := [{ id := 1, isCanceled := false, timeoutId := none },
                { id := 2, isCanceled := true, timeoutId := none }],
      isSignaled := false,
      options := { maxQueueSize := QBound.inf, overflowStrategy := "this",
                   autoResetCount := JNum.fin 3 },
      callbacksCount := JNum.nan }
    rfl (Or.inr ⟨3, rfl, by decide⟩)
  simpa using h

/-- Counterexample to claim C2 as stated: with one queued non-cancelled token
and `releaseCount = 1` (equal to the queue length, so within the claim's
"greater than or equal" bound) the queue drains and the callback runs, but
the gate stays closed: the final invocation hits the `=== 0` budget check and
`set` returns before `isSignaled = true`. -/
theorem c2_counterexample :
    (ResetEvent.set
        { queue := [{ id := 0, isCanceled := false, timeoutId := none }],
          isSignaled := false,
          options := { maxQueueSize := QBound.inf, overflowStrategy := "this",
                       autoResetCount := JNum.fin 1 },
          callbacksCount := JNum.nan }).map
      (fun r => (r.state.queue, r.state.isSignaled, r.invoked.length)) =
      Except.ok ([], false, 1) := by
  rfl

/-! ## Claim C4 -/

/-- Claim C4 fails on the code (code bug, flagged by the spec itself): the
constructor never initializes `callbacksCount`, so on a gate constructed
signaled with `autoResetCount = 2` the decrement produces `NaN`, which never
compares equal to `0`; all three `wait` calls execute their callbacks
immediately, the gate stays signaled, and nothing is ever queued — the third
call does not enqueue as the claim (and the spec's scenario C) requires. -/
theorem c4_open_gate_never_closes :
    (let e0 := ResetEvent.init true
        { maxQueueSize := QBound.inf, overflowStrategy := "this",
          autoResetCount := JNum.fin 2 }
     let w1 := e0.wait 1 none
     let w2 := w1.state.wait 2 none
     let w3 := w2.state.wait 3 none
     w1.invoked.length = 1 ∧ w2.invoked.length = 1 ∧ w3.invoked.length = 1 ∧
       w3.state.isSignaled = true ∧ w3.state.queue = [] ∧
       w3.state.callbacksCount = JNum.nan) := by
  decide

/-! ## Claim C3 -/

/-- Claim C3 (amended: with the `'last'` policy the numeric bound must be at
least 1): starting from any closed gate whose queue is within the numeric
bound `m`, every sequence of `wait` calls leaves `queueSize` at most `m`
(overflow eviction runs synchronously inside each `wait`).  The exception
forced by the counterexample: `maxQueueSize = 0` with the
PreserveNewestAndOldest (`'last'`) policy always reattaches the newest token,
so the queue can hold 1 token. -/
theorem c3_queue_bounded (e : ResetEvent) (m : Nat) (calls : List (Nat × Option Nat))
    (hsig : e.isSignaled = false)
    (hm : e.options.maxQueueSize = QBound.fin m)
    (hstrat : stratOk e.options m)
    (hlen : e.queue.length ≤ m) :
    (e.waitSeq calls).queueSize ≤ m := by
  induction calls generalizing e with
  | nil => simpa [ResetEvent.waitSeq, ResetEvent.queueSize] using hlen
  | cons c rest ih =>
    obtain ⟨hsig1, hopt, hlen1⟩ := wait_closed_step e m c.1 c.2 hsig hm hstrat hlen
    rw [ResetEvent.waitSeq]
    exact ih _ hsig1 (by rw [hopt]; exact hm) (by rw [hopt]; exact hstrat) hlen1

/-- Witness for `c3_queue_bounded`: closed gate, `maxQueueSize = 2`,
RejectNewest (`'this'`), three `wait` calls; the queue size stays at most 2. -/
theorem c3_queue_bounded_witness :
    ((ResetEvent.init false
        { maxQueueSize := QBound.fin 2, overflowStrategy := "this",
          autoResetCount := JNum.inf }).waitSeq
      [(1, none), (2, none), (3, none)]).queueSize ≤ 2 := by
  exact c3_queue_bounded _ 2 [(1, none), (2, none), (3, none)] rfl rfl
    (Or.inl rfl) (Nat.zero_le 2)

/-- Counterexample to claim C3 as stated: `maxQueueSize = 0` is a numeric
bound and `'last'` is one of the three policies, yet a single `wait` on a
closed gate leaves `queueSize = 1 > 0` — the `'last'` policy pops the newest
token before evicting and unconditionally pushes it back. -/
theorem c3_counterexample :
    ¬ ((ResetEvent.init false
        { maxQueueSize := QBound.fin 0, overflowStrategy := "last",
          autoResetCount := JNum.inf }).waitSeq [(1, none)]).queueSize ≤ 0 := by
  decide

/-! ## Claim C5 -/

/-- Claim C5 (amended: requires `maxQueueSize = m ≥ 1`): when a queue
`body ++ [newest]` exceeds the bound `m` under the `'last'`
(PreserveNewestAndOldest) policy, `reduceQueue` keeps the oldest `m - 1`
tokens followed by the single newest token — resulting length exactly `m` —
and evicts exactly the next-newest tokens `body.drop (m - 1)`. -/
theorem c5_last_policy (body : List Token) (lastTok : Token) (options : Options) (m : Nat)
    (hm : options.maxQueueSize = QBound.fin m)
    (hstrat : options.overflowStrategy = "last")
    (hm1 : 1 ≤ m)
    (hover : (body ++ [lastTok]).length > m) :
    reduceQueue (body ++ [lastTok]) options =
      (body.take (m - 1) ++ [lastTok], body.drop (m - 1)) ∧
      (reduceQueue (body ++ [lastTok]) options).1.length = m := by
  have hlen : body.length + 1 > m := by simpa using hover
  have h := reduceQueue_last_eq body lastTok options m hm hstrat hlen
  refine ⟨h, ?_⟩
  rw [h]
  simp only [List.length_append, List.length_take, List.length_cons, List.length_nil]
  omega

/-- Witness for `c5_last_policy`: queue `[t1, t2, t3, t4]` with bound 2 under
`'last'` keeps `[t1, t4]` and evicts `[t2, t3]`. -/
theorem c5_last_policy_witness :
    reduceQueue
        [{ id := 1, isCanceled := false, timeoutId := none },
         { id := 2, isCanceled := false, timeoutId := none },
         { id := 3, isCanceled := false, timeoutId := none },
         { id := 4, isCanceled := false, timeoutId := none }]
        { maxQueueSize := QBound.fin 2, overflowStrategy := "last",
          autoResetCount := JNum.inf } =
      ([{ id := 1, isCanceled := false, timeoutId := none },
        { id := 4, isCanceled := false, timeoutId := none }],
       [{ id := 2, isCanceled := false, timeoutId := none },
        { id := 3, isCanceled := false, timeoutId := none }]) := by
  have h := c5_last_policy
    [{ id := 1, isCanceled := false, timeoutId := none },
     { id := 2, isCanceled := false, timeoutId := none },
     { id := 3, isCanceled := false, timeoutId := none }]
    { id := 4, isCanceled := false, timeoutId := none }
    { maxQueueSize := QBound.fin 2, overflowStrategy := "last",
      autoResetCount := JNum.inf }
    2 rfl rfl (by decide) (by decide)
  simpa using h.1

/-- Counterexample to claim C5 as stated: with the numeric bound
`maxQueueSize = 0` the `'last'` policy is triggered (queue length `1 > 0`)
but the resulting queue still holds the newest token, so its length is
`1 ≠ maxQueueSize`. -/
theorem c5_counterexample :
    (reduceQueue [{ id := 0, isCanceled := false, timeoutId := none }]
        { maxQueueSize := QBound.fin 0, overflowStrategy := "last",
          autoResetCount := JNum.inf }).1.length = 1 := by
  rfl

/-! ## Claim C6 -/

theorem JNum.sub1_add1 (c : JNum) : c.sub1.add1 = c := by
  cases c with
  | nan => rfl
  | inf => rfl
  | fin n =>
    simp only [JNum.sub1, JNum.add1, JNum.fin.injEq]
    omega

theorem setLoop_invoked_not_canceled (q : List Token) (count : JNum) :
    ∀ t ∈ (setLoop q count).invoked, t.isCanceled = false := by
  induction q generalizing count with
  | nil =>
    intro t ht
    simp [setLoop] at ht
  | cons s rest ih =>
    intro t ht
    cases hcs : s.isCanceled with
    | true =>
      simp only [setLoop, hcs, if_true] at ht
      exact ih _ t (by simpa using ht)
    | false =>
      by_cases hz : (count.sub1).isZero = true
      · simp [setLoop, hcs, hz] at ht
        subst ht
        exact hcs
      · simp [setLoop, hcs, hz] at ht
        rcases ht with ht | ht
        · subst ht
          exact hcs
        · exact ih _ t ht

theorem setLoop_canceled_middle (q1 q2 : List Token) (c : Token) (count : JNum)
    (hc : c.isCanceled = true) :
    (setLoop (q1 ++ c :: q2) count).invoked = (setLoop (q1 ++ q2) count).invoked ∧
      (setLoop (q1 ++ c :: q2) count).callbacksCount =
        (setLoop (q1 ++ q2) count).callbacksCount ∧
      (setLoop (q1 ++ c :: q2) count).signaled = (setLoop (q1 ++ q2) count).signaled := by
  induction q1 generalizing count with
  | nil => simp [setLoop, hc, JNum.sub1_add1]
  | cons s q1x ih =>
    cases hcs : s.isCanceled with
    | true =>
      obtain ⟨h1, h2, h3⟩ := ih ((count.sub1).add1)
      simp [setLoop, hcs, h1, h2, h3]
    | false =>
      by_cases hz : (count.sub1).isZero = true
      · simp [setLoop, hcs, hz]
      · obtain ⟨h1, h2, h3⟩ := ih count.sub1
        simp [setLoop, hcs, hz, h1, h2, h3]

/-- Claim C6: a queued token already cancelled (by its timeout firing, which
sets `isCanceled` before the drain reaches it) is skipped by the Release
drain: it is never invoked, and the drain's invocations, final budget and
final signaled state are exactly those of the same gate without that token
(the budget decremented for it is refunded before the drain continues). -/
theorem c6_canceled_token_skipped (e : ResetEvent) (q1 q2 : List Token) (c : Token)
    (hq : e.queue = q1 ++ c :: q2)
    (hsig : e.isSignaled = false)
    (hc : c.isCanceled = true) :
    ∃ r r2, e.set = Except.ok r ∧
      ResetEvent.set { e with queue := q1 ++ q2 } = Except.ok r2 ∧
      r.invoked = r2.invoked ∧
      r.state.isSignaled = r2.state.isSignaled ∧
      r.state.callbacksCount = r2.state.callbacksCount ∧
      c ∉ r.invoked := by
  obtain ⟨h1, h2, h3⟩ := setLoop_canceled_middle q1 q2 c e.options.autoResetCount hc
  refine ⟨{ state := { e with
              queue := (setLoop (q1 ++ c :: q2) e.options.autoResetCount).remaining,
              isSignaled := (setLoop (q1 ++ c :: q2) e.options.autoResetCount).signaled,
              callbacksCount :=
                (setLoop (q1 ++ c :: q2) e.options.autoResetCount).callbacksCount },
            invoked := (setLoop (q1 ++ c :: q2) e.options.autoResetCount).invoked,
            cleared := (setLoop (q1 ++ c :: q2) e.options.autoResetCount).cleared },
          { state := { e with
              queue := (setLoop (q1 ++ q2) e.options.autoResetCount).remaining,
              isSignaled := (setLoop (q1 ++ q2) e.options.autoResetCount).signaled,
              callbacksCount :=
                (setLoop (q1 ++ q2) e.options.autoResetCount).callbacksCount },
            invoked := (setLoop (q1 ++ q2) e.options.autoResetCount).invoked,
            cleared := (setLoop (q1 ++ q2) e.options.autoResetCount).cleared },
          ?_, ?_, h1, h3, h2, ?_⟩
  · simp [ResetEvent.set, hsig, hq]
  · simp [ResetEvent.set, hsig]
  · intro hmem
    have hnc := setLoop_invoked_not_canceled (q1 ++ c :: q2)
      e.options.autoResetCount c hmem
    rw [hc] at hnc
    simp at hnc

/-- Witness for `c6_canceled_token_skipped`: the drain of `[a, c, b]` with
the middle token cancelled behaves as the drain of `[a, b]`. -/
theorem c6_canceled_token_skipped_witness :
    ∃ r r2, ResetEvent.set
        { queue := [{ id := 1, isCanceled := false, timeoutId := none },
                    { id := 2, isCanceled := true, timeoutId := none },
                    { id := 3, isCanceled := false, timeoutId := none }],
          isSignaled := false,
          options := { maxQueueSize := QBound.inf, overflowStrategy := "this",
                       autoResetCount := JNum.fin 2 },
          callbacksCount := JNum.nan } = Except.ok r ∧
      ResetEvent.set
        { queue := [{ id := 1, isCanceled := false, timeoutId := none },
                    { id := 3, isCanceled := false, timeoutId := none }],
          isSignaled := false,
          options := { maxQueueSize := QBound.inf, overflowStrategy := "this",
                       autoResetCount := JNum.fin 2 },
          callbacksCount := JNum.nan } = Except.ok r2 ∧
      r.invoked = r2.invoked ∧
      r.state.isSignaled = r2.state.isSignaled ∧
      r.state.callbacksCount = r2.state.callbacksCount ∧
      { id := 2, isCanceled := true, timeoutId := (none : Option Nat) } ∉ r.invoked := by
  exact c6_canceled_token_skipped
    { queue := [{ id := 1, isCanceled := false, timeoutId := none },
                { id := 2, isCanceled := true, timeoutId := none },
                { id := 3, isCanceled := false, timeoutId := none }],
      isSignaled := false,
      options := { maxQueueSize := QBound.inf, overflowStrategy := "this",
                   autoResetCount := JNum.fin 2 },
      callbacksCount := JNum.nan }
    [{ id := 1, isCanceled := false, timeoutId := none }]
    [{ id := 3, isCanceled := false, timeoutId := none }]
    { id := 2, isCanceled := true, timeoutId := none }
    rfl rfl rfl

/-! ## Claim C8 -/

/-- Claim C8 (amended: the Closed-to-Open half of the alternation holds when
the Release call's drain empties the queue without exhausting its budget —
an empty queue, an unbounded budget, or a finite budget strictly exceeding
the number of live (non-cancelled) queued tokens): `reset` on a closed gate
and `set` on an open gate fail with the state error and (being functional on
the model) leave the state untouched; `reset` on an open gate flips it
closed; `set` on a closed gate whose drain completes flips it open and
empties the queue.  A Release that exhausts its budget mid-drain leaves the
gate Closed, breaking the alternation as stated (see the counterexample). -/
theorem c8_state_alternation (e : ResetEvent) :
    (e.isSignaled = false →
      e.reset = Except.error "The reset event is already in a non signaled state") ∧
    (e.isSignaled = true →
      e.set = Except.error "The reset event is already in a signaled state") ∧
    (e.isSignaled = true → e.reset = Except.ok { e with isSignaled := false }) ∧
    (e.isSignaled = false →
      (e.queue = [] ∨ e.options.autoResetCount = JNum.inf ∨
        ∃ K : Int, e.options.autoResetCount = JNum.fin K ∧
          ((e.queue.filter (fun u => !u.isCanceled)).length : Int) < K) →
      ∃ r, e.set = Except.ok r ∧ r.state.isSignaled = true ∧ r.state.queue = []) := by
  refine ⟨?_, ?_, ?_, ?_⟩
  · intro h
    simp [ResetEvent.reset, h]
  · intro h
    simp [ResetEvent.set, h]
  · intro h
    simp [ResetEvent.reset, h]
  · intro h hdrain
    have key : (setLoop e.queue e.options.autoResetCount).remaining = [] ∧
        (setLoop e.queue e.options.autoResetCount).signaled = true := by
      rcases hdrain with hq | hinf | ⟨K, hfin, hlt⟩
      · rw [hq]
        exact ⟨rfl, rfl⟩
      · rw [hinf]
        exact ⟨(setLoop_inf e.queue).1, (setLoop_inf e.queue).2.1⟩
      · rw [hfin]
        exact ⟨(setLoop_big e.queue K hlt).1, (setLoop_big e.queue K hlt).2.1⟩
    refine ⟨{ state := { e with
                queue := (setLoop e.queue e.options.autoResetCount).remaining,
                isSignaled := (setLoop e.queue e.options.autoResetCount).signaled,
                callbacksCount :=
                  (setLoop e.queue e.options.autoResetCount).callbacksCount },
              invoked := (setLoop e.queue e.options.autoResetCount).invoked,
              cleared := (setLoop e.queue e.options.autoResetCount).cleared },
            ?_, key.2, key.1⟩
    simp [ResetEvent.set, h]

/-- Witness for `c8_state_alternation`: on a fresh open gate `reset` succeeds
and `set` throws; on a fresh closed gate `reset` throws and `set` succeeds,
opening the gate; and on a closed gate holding one cancelled token with the
finite budget 1 (strictly more than the 0 live tokens), `set` refunds the
budget, drains the queue and opens the gate. -/
theorem c8_state_alternation_witness :
    (ResetEvent.init true defaultOptions).reset =
        Except.ok { ResetEvent.init true defaultOptions with isSignaled := false } ∧
      (ResetEvent.init true defaultOptions).set =
        Except.error "The reset event is already in a signaled state" ∧
      (ResetEvent.init false defaultOptions).reset =
        Except.error "The reset event is already in a non signaled state" ∧
      (∃ r, (ResetEvent.init false defaultOptions).set = Except.ok r ∧
        r.state.isSignaled = true ∧ r.state.queue = []) ∧
      ∃ r, ResetEvent.set
          { queue := [{ id := 4, isCanceled := true, timeoutId := none }],
            isSignaled := false,
            options := { maxQueueSize := QBound.inf, overflowStrategy := "this",
                         autoResetCount := JNum.fin 1 },
            callbacksCount := JNum.nan } = Except.ok r ∧
        r.state.isSignaled = true ∧ r.state.queue = [] := by
  have h1 := c8_state_alternation (ResetEvent.init true defaultOptions)
  have h2 := c8_state_alternation (ResetEvent.init false defaultOptions)
  have h3 := c8_state_alternation
    { queue := [{ id := 4, isCanceled := true, timeoutId := none }],
      isSignaled := false,
      options := { maxQueueSize := QBound.inf, overflowStrategy := "this",
                   autoResetCount := JNum.fin 1 },
      callbacksCount := JNum.nan }
  exact ⟨h1.2.2.1 rfl, h1.2.1 rfl, h2.1 rfl, h2.2.2.2 rfl (Or.inl rfl),
    h3.2.2.2 rfl (Or.inr (Or.inr ⟨1, rfl, by decide⟩))⟩

/-- Counterexample to claim C8 as stated: from the Closed state (gate with
one live queued token, `autoResetCount = 1`), `set` (Release) succeeds but
the gate is still Closed afterwards — Release is not Closed-to-Open from
every state, so strict alternation fails. -/
theorem c8_counterexample :
    (ResetEvent.set
        { queue := [{ id := 0, isCanceled := false, timeoutId := none }],
          isSignaled := false,
          options := { maxQueueSize := QBound.inf, overflowStrategy := "this",
                       autoResetCount := JNum.fin 1 },
          callbacksCount := JNum.nan }).map
      (fun r => r.state.isSignaled) = Except.ok false := by
  rfl

/-! ## Claim C9 -/

theorem reduceQueue_nil (options : Options) : reduceQueue [] options = ([], []) := by
  cases h : options.maxQueueSize <;> simp [reduceQueue, h]

theorem setLoop_signaled_remaining (q : List Token) (count : JNum)
    (h : (setLoop q count).signaled = true) : (setLoop q count).remaining = [] := by
  induction q generalizing count with
  | nil => simp [setLoop]
  | cons s rest ih =>
    cases hcs : s.isCanceled with
    | true =>
      simp only [setLoop, hcs, if_true] at h ⊢
      exact ih _ (by simpa using h)
    | false =>
      by_cases hz : (count.sub1).isZero = true
      · simp [setLoop, hcs, hz] at h
      · simp only [setLoop, hcs, hz] at h ⊢
        simp at h ⊢
        exact ih _ (by simpa using h)

/-- Claim C9: the invariant "signaled implies empty queue" is established by
construction and preserved by `reset`, `set` (Release), `wait`, and a
timeout firing. -/
theorem c9_signaled_queue_empty (e : ResetEvent) (hinv : GateInv e) :
    (∀ sig opts, GateInv (ResetEvent.init sig opts)) ∧
      (∀ e2, e.reset = Except.ok e2 → GateInv e2) ∧
      (∀ r, e.set = Except.ok r → GateInv r.state) ∧
      (∀ id tmo, GateInv ((e.wait id tmo).state)) ∧
      (∀ i, GateInv (e.fireTimeout i)) := by
  refine ⟨?_, ?_, ?_, ?_, ?_⟩
  · intro sig opts h
    rfl
  · intro e2 h2
    by_cases hs : e.isSignaled = false
    · simp [ResetEvent.reset, hs] at h2
    · simp [ResetEvent.reset, hs] at h2
      intro hs2
      rw [← h2] at hs2
      simp at hs2
  · intro r hr
    by_cases hs : e.isSignaled = true
    · simp [ResetEvent.set, hs] at hr
    · simp [ResetEvent.set, hs] at hr
      intro hs2
      rw [← hr] at hs2 ⊢
      simp only at hs2 ⊢
      exact setLoop_signaled_remaining _ _ hs2
  · intro id tmo
    by_cases hs : e.isSignaled = true
    · have hq : e.queue = [] := hinv hs
      intro hs2
      simp [ResetEvent.wait, hs, hq, reduceQueue_nil]
    · intro hs2
      exfalso
      simp only [ResetEvent.wait] at hs2
      rw [if_neg (by simpa using hs)] at hs2
      simp at hs2
      exact hs (by simpa using hs2)
  · intro i hs2
    have hq : e.queue = [] := hinv (by simpa [ResetEvent.fireTimeout] using hs2)
    simp [ResetEvent.fireTimeout, hq]

/-- Witness for `c9_signaled_queue_empty`: the invariant holds after a `wait`
on a fresh closed gate. -/
theorem c9_signaled_queue_empty_witness :
    GateInv (((ResetEvent.init false defaultOptions).wait 1 none).state) := by
  exact (c9_signaled_queue_empty (ResetEvent.init false defaultOptions)
    (fun h => rfl)).2.2.2.1 1 none

/-! ## Claim C10 -/

/-- Claim C10: `wait` with the timeout omitted or equal to 0 arms no timer
(`if (timeout)` is falsy), so the returned token has no timer handle and the
timer-fire transition never touches a token without a handle; a strictly
positive timeout arms the timer (the returned token carries the handle). -/
theorem c10_timeout_arming (e : ResetEvent) (id : Nat) :
    ((e.wait id none).token.timeoutId = none) ∧
      ((e.wait id (some 0)).token.timeoutId = none) ∧
      (∀ t : Nat, 0 < t → (e.wait id (some t)).token.timeoutId = some id) ∧
      (∀ tok : Token, tok.timeoutId = none → ∀ i, timeoutFireUpdate i tok = tok) := by
  refine ⟨?_, ?_, ?_, ?_⟩
  · by_cases hs : e.isSignaled = true <;>
      simp [ResetEvent.wait, hs, cancelToken, apply_ite]
  · by_cases hs : e.isSignaled = true <;>
      simp [ResetEvent.wait, hs, cancelToken, apply_ite]
  · intro t ht
    have hne : t ≠ 0 := Nat.pos_iff_ne_zero.mp ht
    by_cases hs : e.isSignaled = true <;>
      simp [ResetEvent.wait, hs, cancelToken, apply_ite, hne]
  · intro tok htid i
    simp [timeoutFireUpdate, htid]

/-- Witness for `c10_timeout_arming`: `wait` with timeout 5 arms the timer;
a fired timer leaves a timerless token untouched. -/
theorem c10_timeout_arming_witness :
    ((ResetEvent.init false defaultOptions).wait 7 (some 5)).token.timeoutId = some 7 ∧
      timeoutFireUpdate 3 { id := 9, isCanceled := false, timeoutId := none } =
        { id := 9, isCanceled := false, timeoutId := none } := by
  have h := c10_timeout_arming (ResetEvent.init false defaultOptions) 7
  exact ⟨h.2.2.1 5 (by decide), h.2.2.2 _ rfl 3⟩

/-! ## Claim C7 -/


theorem setLoop_remaining_length_le (q : List Token) (count : JNum) :
    (setLoop q count).remaining.length ≤ q.length := by
  induction q generalizing count with
  | nil => simp [setLoop]
  | cons s rest ih =>
    cases hcs : s.isCanceled with
    | true =>
      have h := ih ((count.sub1).add1)
      simp only [setLoop, hcs, if_true, List.length_cons]
      omega
    | false =>
      by_cases hz : (count.sub1).isZero = true
      · simp only [setLoop, hcs, Bool.false_eq_true, if_false, hz, if_true,
          List.length_cons]
        omega
      · have h := ih count.sub1
        simp only [setLoop, hcs, Bool.false_eq_true, if_false, hz,
          List.length_cons]
        omega

theorem mem_if_singleton {i sid : Nat} {b : Bool}
    (h : i ∈ (if b = true then [sid] else ([] : List Nat))) : i = sid := by
  cases b with
  | true => simpa using h
  | false => simp at h

theorem mem_if_singleton_self {sid : Nat} {b : Bool} :
    sid ∈ (if b = true then [sid] else ([] : List Nat)) ↔ b = true := by
  cases b <;> simp

theorem setLoop_cleared_subset (q : List Token) (count : JNum) :
    ∀ i ∈ (setLoop q count).cleared, i ∈ q.map Token.id := by
  induction q generalizing count with
  | nil =>
    intro i hi
    simp [setLoop] at hi
  | cons s rest ih =>
    intro i hi
    cases hcs : s.isCanceled with
    | true =>
      simp only [setLoop, hcs, if_true] at hi
      rcases List.mem_append.mp hi with hi | hi
      · simp [mem_if_singleton hi]
      · simp only [List.map_cons, List.mem_cons]
        exact Or.inr (ih _ i hi)
    | false =>
      by_cases hz : (count.sub1).isZero = true
      · simp only [setLoop, hcs, Bool.false_eq_true, if_false, hz, if_true] at hi
        simp [mem_if_singleton hi]
      · simp only [setLoop, hcs, Bool.false_eq_true, if_false, hz] at hi
        rcases List.mem_append.mp hi with hi | hi
        · simp [mem_if_singleton hi]
        · simp only [List.map_cons, List.mem_cons]
          exact Or.inr (ih _ i hi)


/-- Claim C7: during a single Release drain with finite initial budget `K`,
the timer of the queued token at position `q1.length` (decomposition
`q1 ++ t :: q2`) is cleared if and only if the token is actually popped, it
has an armed timer, and the budget after being decremented for it —
`K` minus the non-cancelled tokens already drained minus one — is still
positive.  In particular the token that exhausts the budget (budget 0 after
its decrement) keeps its timer running. -/
theorem c7_timer_clearing (q1 q2 : List Token) (t : Token) (K : Int)
    (hnd : ((q1 ++ t :: q2).map Token.id).Nodup) :
    (t.id ∈ (setLoop (q1 ++ t :: q2) (JNum.fin K)).cleared ↔
      (q1.length <
          (q1 ++ t :: q2).length -
            (setLoop (q1 ++ t :: q2) (JNum.fin K)).remaining.length ∧
        t.timeoutId.isSome = true ∧
        0 < K - ((q1.filter (fun u => !u.isCanceled)).length : Int) - 1)) := by
  revert hnd
  induction q1 generalizing K with
  | nil =>
    intro hnd
    simp only [List.nil_append, List.map_cons, List.nodup_cons] at hnd
    have hnot : t.id ∉ (setLoop q2 (JNum.fin K)).cleared := fun h =>
      hnd.1 (setLoop_cleared_subset q2 (JNum.fin K) t.id h)
    have hnot1 : t.id ∉ (setLoop q2 ((JNum.fin K).sub1)).cleared := fun h =>
      hnd.1 (setLoop_cleared_subset q2 ((JNum.fin K).sub1) t.id h)
    simp only [List.nil_append, List.length_nil, List.filter_nil,
      Int.Nat.cast_ofNat_Int]
    cases hct : t.isCanceled with
    | true =>
      have hrem := setLoop_remaining_length_le q2 (JNum.fin K)
      have hcl : (setLoop (t :: q2) (JNum.fin K)).cleared =
          (if (t.timeoutId.isSome && ((JNum.fin K).sub1).gtZero) = true
            then [t.id] else []) ++ (setLoop q2 (JNum.fin K)).cleared := by
        simp only [setLoop, hct, if_true, JNum.sub1_add1]
      have hrm : (setLoop (t :: q2) (JNum.fin K)).remaining =
          (setLoop q2 (JNum.fin K)).remaining := by
        simp only [setLoop, hct, if_true, JNum.sub1_add1]
      rw [hcl, hrm]
      constructor
      · intro hmem
        rcases List.mem_append.mp hmem with hmem | hmem
        · have hb := mem_if_singleton_self.mp hmem
          rw [Bool.and_eq_true] at hb
          have hgt : 0 < K - 1 := by
            have h2 := hb.2
            simp only [JNum.sub1, JNum.gtZero, decide_eq_true_eq] at h2
            exact h2
          refine ⟨?_, hb.1, by omega⟩
          simp only [List.length_cons]
          omega
        · exact absurd hmem hnot
      · rintro ⟨hlen, harmed, hK⟩
        apply List.mem_append.mpr
        left
        apply mem_if_singleton_self.mpr
        rw [Bool.and_eq_true]
        refine ⟨harmed, ?_⟩
        simp only [JNum.sub1, JNum.gtZero, decide_eq_true_eq]
        omega
    | false =>
      by_cases hz : K - 1 = 0
      · have hiz : ((JNum.fin K).sub1).isZero = true := by
          simp only [JNum.sub1, JNum.isZero, beq_iff_eq]
          exact hz
        have hgt : ((JNum.fin K).sub1).gtZero = false := by
          simp only [JNum.sub1, JNum.gtZero, decide_eq_false_iff_not]
          omega
        have hcl : (setLoop (t :: q2) (JNum.fin K)).cleared =
            (if (t.timeoutId.isSome && ((JNum.fin K).sub1).gtZero) = true
              then [t.id] else []) := by
          simp only [setLoop, hct, Bool.false_eq_true, if_false, hiz, if_true]
        rw [hcl, hgt, Bool.and_false]
        simp only [Bool.false_eq_true, if_false, List.not_mem_nil, false_iff]
        rintro ⟨h1, h2, h3⟩
        omega
      · have hiz : ((JNum.fin K).sub1).isZero = false := by
          simp only [JNum.sub1, JNum.isZero, beq_eq_false_iff_ne, ne_eq]
          exact hz
        have hrem := setLoop_remaining_length_le q2 ((JNum.fin K).sub1)
        have hcl : (setLoop (t :: q2) (JNum.fin K)).cleared =
            (if (t.timeoutId.isSome && ((JNum.fin K).sub1).gtZero) = true
              then [t.id] else []) ++ (setLoop q2 ((JNum.fin K).sub1)).cleared := by
          simp only [setLoop, hct, Bool.false_eq_true, if_false, hiz]
        have hrm : (setLoop (t :: q2) (JNum.fin K)).remaining =
            (setLoop q2 ((JNum.fin K).sub1)).remaining := by
          simp only [setLoop, hct, Bool.false_eq_true, if_false, hiz]
        rw [hcl, hrm]
        constructor
        · intro hmem
          rcases List.mem_append.mp hmem with hmem | hmem
          · have hb := mem_if_singleton_self.mp hmem
            rw [Bool.and_eq_true] at hb
            have hgt : 0 < K - 1 := by
              have h2 := hb.2
              simp only [JNum.sub1, JNum.gtZero, decide_eq_true_eq] at h2
              exact h2
            refine ⟨?_, hb.1, by omega⟩
            simp only [List.length_cons]
            omega
          · exact absurd hmem hnot1
        · rintro ⟨hlen, harmed, hK⟩
          apply List.mem_append.mpr
          left
          apply mem_if_singleton_self.mpr
          rw [Bool.and_eq_true]
          refine ⟨harmed, ?_⟩
          simp only [JNum.sub1, JNum.gtZero, decide_eq_true_eq]
          omega
  | cons s q1x ih =>
    intro hnd
    simp only [List.cons_append, List.map_cons, List.nodup_cons] at hnd
    obtain ⟨hs_nin, hndA⟩ := hnd
    have ht_mem : t.id ∈ (q1x ++ t :: q2).map Token.id :=
      List.mem_map_of_mem Token.id (List.mem_append_right q1x (List.mem_cons_self t q2))
    have hne : t.id ≠ s.id := fun h => hs_nin (h ▸ ht_mem)
    simp only [List.cons_append]
    cases hcs : s.isCanceled with
    | true =>
      have hremA := setLoop_remaining_length_le (q1x ++ t :: q2) (JNum.fin K)
      have hiff := ih K hndA
      have hcl : (setLoop (s :: (q1x ++ t :: q2)) (JNum.fin K)).cleared =
          (if (s.timeoutId.isSome && ((JNum.fin K).sub1).gtZero) = true
            then [s.id] else []) ++
            (setLoop (q1x ++ t :: q2) (JNum.fin K)).cleared := by
        simp only [setLoop, hcs, if_true, JNum.sub1_add1]
      have hrm : (setLoop (s :: (q1x ++ t :: q2)) (JNum.fin K)).remaining =
          (setLoop (q1x ++ t :: q2) (JNum.fin K)).remaining := by
        simp only [setLoop, hcs, if_true, JNum.sub1_add1]
      rw [hcl, hrm]
      constructor
      · intro hmem
        rcases List.mem_append.mp hmem with hmem | hmem
        · exact absurd (mem_if_singleton hmem) hne
        · obtain ⟨h1, h2, h3⟩ := hiff.mp hmem
          refine ⟨?_, h2, ?_⟩
          · simp only [List.length_cons]
            omega
          · have hfil : (s :: q1x).filter (fun u => !u.isCanceled) =
                q1x.filter (fun u => !u.isCanceled) := by
              simp [List.filter_cons, hcs]
            rw [hfil]
            exact h3
      · rintro ⟨h1, h2, h3⟩
        apply List.mem_append.mpr
        right
        apply hiff.mpr
        have hfil : (s :: q1x).filter (fun u => !u.isCanceled) =
            q1x.filter (fun u => !u.isCanceled) := by
          simp [List.filter_cons, hcs]
        rw [hfil] at h3
        refine ⟨?_, h2, h3⟩
        simp only [List.length_cons] at h1
        omega
    | false =>
      by_cases hz : K - 1 = 0
      · have hiz : ((JNum.fin K).sub1).isZero = true := by
          simp only [JNum.sub1, JNum.isZero, beq_iff_eq]
          exact hz
        have hcl : (setLoop (s :: (q1x ++ t :: q2)) (JNum.fin K)).cleared =
            (if (s.timeoutId.isSome && ((JNum.fin K).sub1).gtZero) = true
              then [s.id] else []) := by
          simp only [setLoop, hcs, Bool.false_eq_true, if_false, hiz, if_true]
        have hrm : (setLoop (s :: (q1x ++ t :: q2)) (JNum.fin K)).remaining =
            q1x ++ t :: q2 := by
          simp only [setLoop, hcs, Bool.false_eq_true, if_false, hiz, if_true]
        rw [hcl, hrm]
        constructor
        · intro hmem
          exact absurd (mem_if_singleton hmem) hne
        · rintro ⟨h1, h2, h3⟩
          exfalso
          simp only [List.length_cons] at h1
          omega
      · have hiz : ((JNum.fin K).sub1).isZero = false := by
          simp only [JNum.sub1, JNum.isZero, beq_eq_false_iff_ne, ne_eq]
          exact hz
        have hremA := setLoop_remaining_length_le (q1x ++ t :: q2) ((JNum.fin K).sub1)
        have hiff := ih (K - 1) hndA
        have hsub : (JNum.fin K).sub1 = JNum.fin (K - 1) := rfl
        have hcl : (setLoop (s :: (q1x ++ t :: q2)) (JNum.fin K)).cleared =
            (if (s.timeoutId.isSome && ((JNum.fin K).sub1).gtZero) = true
              then [s.id] else []) ++
              (setLoop (q1x ++ t :: q2) ((JNum.fin K).sub1)).cleared := by
          simp only [setLoop, hcs, Bool.false_eq_true, if_false, hiz]
        have hrm : (setLoop (s :: (q1x ++ t :: q2)) (JNum.fin K)).remaining =
            (setLoop (q1x ++ t :: q2) ((JNum.fin K).sub1)).remaining := by
          simp only [setLoop, hcs, Bool.false_eq_true, if_false, hiz]
        rw [hcl, hrm, hsub]
        rw [hsub] at hremA
        constructor
        · intro hmem
          rcases List.mem_append.mp hmem with hmem | hmem
          · exact absurd (mem_if_singleton hmem) hne
          · obtain ⟨h1, h2, h3⟩ := hiff.mp hmem
            refine ⟨?_, h2, ?_⟩
            · simp only [List.length_cons]
              omega
            · have hfil : (s :: q1x).filter (fun u => !u.isCanceled) =
                  s :: q1x.filter (fun u => !u.isCanceled) := by
                simp [List.filter_cons, hcs]
              rw [hfil]
              simp only [List.length_cons]
              push_cast
              omega
        · rintro ⟨h1, h2, h3⟩
          apply List.mem_append.mpr
          right
          apply hiff.mpr
          have hfil : (s :: q1x).filter (fun u => !u.isCanceled) =
              s :: q1x.filter (fun u => !u.isCanceled) := by
            simp [List.filter_cons, hcs]
          rw [hfil] at h3
          simp only [List.length_cons] at h1 h3
          push_cast at h3
          refine ⟨by omega, h2, by omega⟩

/-- Witness for `c7_timer_clearing`: with budget 2 and two armed live tokens,
the first token's timer is cleared (budget after its decrement is 1 > 0). -/
theorem c7_timer_clearing_witness :
    1 ∈ (setLoop [{ id := 1, isCanceled := false, timeoutId := some 1 },
                  { id := 2, isCanceled := false, timeoutId := some 2 }]
          (JNum.fin 2)).cleared := by
  have h := c7_timer_clearing []
    [{ id := 2, isCanceled := false, timeoutId := some 2 }]
    { id := 1, isCanceled := false, timeoutId := some 1 } 2 (by decide)
  exact h.mpr ⟨by decide, by decide, by decide⟩

end ResetEventModel
